import Mathlib

/-!
Shallow embedding of the in-memory product catalogue cache and query engine
of the `ecommerceV1` backend (src/services/products.service.js,
src/services/filter.service.js, src/services/search.service.js,
src/integrations/wordpress/filter.wp.js, src/utils/transform.js).

Modelling conventions:
* JS arrays are `List`, JS objects carrying query parameters are association
  lists, numeric ids are `Nat`, timestamps are `Int` (epoch milliseconds).
* A `date_created` ISO string is represented by its parsed timestamp
  (`Option Int`; `none` models a missing field, whose `new Date(...)` use
  never happens because the code guards on falsiness first).
* `parseFloat(p.price || 0)` is modelled by `Option Int` with `getD 0`
  (the claims under study never depend on fractional price values).
* `Array.prototype.sort` with a comparator is modelled by a stable
  insertion sort over `cmp a b ≤ 0`; every property proved about sort
  output here (length, membership, sortedness) holds for any conforming
  JS sort implementation.
* `Array.prototype.slice(start, end)` is modelled faithfully including its
  negative-index clamping semantics (`jsSlice`).
* Network calls are modelled by explicit `Except`-valued inputs; the Redis
  snapshot store is an explicit `Option` state threaded through.
-/

namespace Ecom

/-- `{id, slug, name}` category membership entry of a transformed product. -/
structure CategoryRef where
  id : Nat
  slug : String
  name : String
  deriving Repr, DecidableEq

/-- `{slug, options}` attribute entry of a transformed product
(`options` are human-readable option names). -/
structure AttributeRef where
  slug : String
  options : List String
  deriving Repr, DecidableEq

/-- The transformed catalogue item produced by `transformProducts`
(src/utils/transform.js).  Fields not consulted by the cache/query code
under verification (permalink, images, stock_status, yoast data, the two
`_gmt`/modified date variants, regular/sale price) are carried opaquely by
the code and omitted here. -/
structure Item where
  id : Nat
  name : String
  slug : String
  date_created : Option Int
  price : Option Int
  price_html : String
  categories : List CategoryRef
  attributes : List AttributeRef
  deriving Repr, DecidableEq

/-- Raw upstream product record, restricted to the fields the transformer
reads.  `price_html` is the raw rich-text price fragment (absent ⇒ `none`,
modelling `product.price_html?.`); `categories`/`attributes` use `Option`
to model the `|| []` defaulting. -/
structure RawProduct where
  id : Nat
  name : String
  slug : String
  date_created : Option Int
  price : Option Int
  price_html : Option String
  categories : Option (List CategoryRef)
  attributes : Option (List AttributeRef)
  deriving Repr, DecidableEq

/-! ### JS `Array.prototype.slice` -/

/-- Normalise one JS slice index: negative indices count from the end,
clamped to `[0, len]`; nonnegative indices are clamped to `len`. -/
def jsSliceIdx (len : Nat) (i : Int) : Nat :=
  if i < 0 then ((len : Int) + i).toNat else min i.toNat len

/-- `xs.slice(start, stop)` with JS index-normalisation semantics. -/
def jsSlice (xs : List α) (start stop : Int) : List α :=
  (xs.take (jsSliceIdx xs.length stop)).drop (jsSliceIdx xs.length start)

/-- `Math.ceil(total / perPage)` for natural arguments (`perPage ≥ 1`). -/
def jsCeilDiv (total perPage : Nat) : Nat :=
  (total + perPage - 1) / perPage

/-! ### JS `Array.prototype.sort` with a numeric comparator -/

/-- Insert `x` into `l`, placing it before the first element `y` with
`cmp x y ≤ 0`. -/
def insertByCmp (cmp : α → α → Int) (x : α) : List α → List α
  | [] => [x]
  | y :: ys => if cmp x y ≤ 0 then x :: y :: ys else y :: insertByCmp cmp x ys

/-- Comparator sort (model of `Array.prototype.sort(cmp)`). -/
def sortByCmp (cmp : α → α → Int) : List α → List α
  | [] => []
  | x :: xs => insertByCmp cmp x (sortByCmp cmp xs)

/-! ### Record Transformer (src/utils/transform.js) -/

/-- Characters matched by the class `[\d,]` of the price-token regex. -/
def isDigitComma (c : Char) : Bool := c.isDigit || c = ','

/-- `rawHtml.replace(/<[^>]*>?/gm, '')`: remove every `<`-to-`>` span
(an unterminated `<...` swallows the rest of the string).  The repeated
leftmost-match replacement is a two-state scan: outside a tag characters
are kept and `<` enters tag state; inside a tag characters are dropped
until a `>` leaves tag state. -/
def stripTagsAux : Bool → List Char → List Char
  | _, [] => []
  | false, c :: rest =>
    if c = '<' then stripTagsAux true rest
    else c :: stripTagsAux false rest
  | true, c :: rest =>
    if c = '>' then stripTagsAux false rest
    else stripTagsAux true rest

/-- `/[\d,]+\.?\d*/` matched at this position: a maximal non-empty run
of digits/commas, then an optional `.` followed by a maximal digit run.
All regex parts after the mandatory `[\d,]+` are optional and greedy, so
no backtracking arises. -/
def numMatchAt (cs : List Char) : Option (List Char) :=
  let run1 := cs.takeWhile isDigitComma
  if run1.isEmpty then none
  else
    let rest1 := cs.dropWhile isDigitComma
    if rest1.head? = some '.' then
      some (run1 ++ '.' :: rest1.tail.takeWhile Char.isDigit)
    else some run1

/-- `cleanText.match(/[\d,]+\.?\d*/)`: the leftmost match — the regex
matches at a position iff it starts with a `[\d,]` character. -/
def numScan : List Char → Option (List Char)
  | [] => none
  | c :: rest =>
    if isDigitComma c then numMatchAt (c :: rest)
    else numScan rest

/-- The `price_html` field computation of `transformProducts`
(src/utils/transform.js): a falsy `price_html` yields `""`; otherwise
strip all HTML tags with `replace(/<[^>]*>?/gm, '')`, then return the
first match of `/[\d,]+\.?\d*/` (`match[0]`), or `""` when there is
none.  (An earlier revision of the transformer used a `>`-anchored
capture; it is commented out in the source and not modelled.) -/
def parsePriceHtml : Option String → String
  | none => ""
  | some s =>
    if s = "" then ""
    else
      match numScan (stripTagsAux false s.data) with
      | some m => String.mk m
      | none => ""

/-- Per-item transform (src/utils/transform.js, `transformProducts`
callback), restricted to the modelled fields; `|| []` defaulting on
categories/attributes. -/
def transformProduct (p : RawProduct) : Item :=
  { id := p.id
    name := p.name
    slug := p.slug
    date_created := p.date_created
    price := p.price
    price_html := parsePriceHtml p.price_html
    categories := p.categories.getD []
    attributes := p.attributes.getD [] }

/-- `transformProducts` (src/utils/transform.js): a per-item map. -/
def transformProducts (ps : List RawProduct) : List Item :=
  ps.map transformProduct

/-! ### Snapshot Store: `fetchAllProducts` (src/services/products.service.js) -/

/-- The pagination loop of `fetchAllProducts` (lines 29-49): collect
pages from `page` upward until an empty page terminates the loop; a
failing page request throws, aborting the loop with its error.  `none`
means the `fuel` bound ran out before the loop halted (the JS loop would
still be running). -/
def collectPages (pages : Nat → Except String (List RawProduct)) :
    Nat → Nat → List RawProduct → Option (Except String (List RawProduct))
  | 0, _, _ => none
  | fuel + 1, page, acc =>
    match pages page with
    | .error e => some (.error e)
    | .ok data =>
      if data.isEmpty then some (.ok acc)
      else collectPages pages fuel (page + 1) (acc ++ data)

/-- The `try` block of `fetchAllProducts` (lines 14-67) as explicit state
passing.  `cache` is the Redis value under `products:all_search_data`
(already-transformed items); the `.ok` payload pairs the returned list
with the cache contents after the call.  Note the guard on line 57: the
snapshot is (re)written only when the transformed list is non-empty. -/
def fetchAllProductsTry (forceRefresh : Bool)
    (pages : Nat → Except String (List RawProduct)) (fuel : Nat)
    (cache : Option (List Item)) :
    Option (Except String (List Item × Option (List Item))) :=
  match forceRefresh, cache with
  | false, some cachedData => some (.ok (cachedData, some cachedData))
  | _, _ =>
    match collectPages pages fuel 1 [] with
    | none => none
    | some (.error e) => some (.error e)
    | some (.ok allProducts) =>
      let transformedData := transformProducts allProducts
      if transformedData.length > 0 then
        some (.ok (transformedData, some transformedData))
      else
        some (.ok (transformedData, cache))

/-- `fetchAllProducts` (src/services/products.service.js:13-73): the
`catch` handler (lines 68-72) swallows any error and returns `[]`,
leaving the cache untouched. -/
def fetchAllProducts (forceRefresh : Bool)
    (pages : Nat → Except String (List RawProduct)) (fuel : Nat)
    (cache : Option (List Item)) : Option (List Item × Option (List Item)) :=
  match fetchAllProductsTry forceRefresh pages fuel cache with
  | none => none
  | some (.error _) => some ([], cache)
  | some (.ok r) => some r

/-! ### Query Engine: shared pieces -/

/-- `parseFloat(p.price || 0)` (filter.service.js:71,
products.service.js:260-261): a missing/empty price reads as 0. -/
def getPrice (p : Item) : Int := p.price.getD 0

/-- `new Date(p.date_created)` as a timestamp.  In the sorts below a
missing date behaves as the epoch (spec §4.4's stated convention); every
item the new-arrivals sort sees has already passed the
`date_created` guard. -/
def jsDateVal (p : Item) : Int := p.date_created.getD 0

/-- `String.prototype.toLowerCase()`: per-character lowercasing
(`Char.toLower` simple case mapping; `String.toLower` computes the same
string but through a non-structural recursion, so the per-character map
is used directly). -/
def jsToLower (s : String) : String := String.mk (s.data.map Char.toLower)

/-- Code-point lexicographic three-way comparison on char lists; model of
`String.prototype.localeCompare` (locale collation abstracted to
code-point order). -/
def lexCmp : List Char → List Char → Int
  | [], [] => 0
  | [], _ :: _ => -1
  | _ :: _, [] => 1
  | a :: as, b :: bs => if a < b then -1 else if b < a then 1 else lexCmp as bs

def localeCompare (a b : String) : Int := lexCmp a.data b.data

/-- Comparator of `fetchProductsByCategory` (products.service.js:254-283):
switch on `orderby` (`'price'`, `'title'`/`'name'`, default date), then
negate for `order === 'desc'`. -/
def categoryCmp (orderby order : String) (a b : Item) : Int :=
  let comparison : Int :=
    if orderby = "price" then getPrice a - getPrice b
    else if orderby = "title" ∨ orderby = "name" then localeCompare a.name b.name
    else jsDateVal a - jsDateVal b
  if order = "desc" then comparison * -1 else comparison

/-- Comparator of `getFilteredProducts` (filter.service.js:69-88): same
switch (without the `'name'` alias), negated unless `order === 'asc'`. -/
def filterCmp (orderby order : String) (a b : Item) : Int :=
  let comparison : Int :=
    if orderby = "price" then getPrice a - getPrice b
    else if orderby = "title" then localeCompare a.name b.name
    else jsDateVal a - jsDateVal b
  if order = "asc" then comparison else comparison * -1

/-! ### Query Engine: attribute filtering (src/services/filter.service.js) -/

/-- The allow-list of recognized filter keys (filter.service.js:9). -/
def ALLOWED_FILTERS : List String :=
  ["pa_material", "pa_room-type-usage", "pa_colour", "pa_finish"]

/-- `normalizedName.replace(/\s+/g, '-')` (filter.service.js:58): replace
each maximal whitespace run with one hyphen.  `inRun` records whether the
previous character was part of a whitespace run. -/
def collapseWsAux : Bool → List Char → List Char
  | _, [] => []
  | inRun, c :: rest =>
    if c.isWhitespace then
      if inRun then collapseWsAux true rest
      else '-' :: collapseWsAux true rest
    else c :: collapseWsAux false rest

def slugifyName (s : String) : String := String.mk (collapseWsAux false s.data)

/-- `filterValue.split(',').map(v => v.trim().toLowerCase())`
(filter.service.js:41). -/
def requestedOptionsOf (filterValue : String) : List String :=
  (filterValue.splitOn ",").map (fun v => jsToLower v.trim)

/-- One `(filterKey, filterValue)` check: body of the `.every` callback
(filter.service.js:32-65).  Keys outside the allow-list and falsy (empty)
values pass unconditionally; a product lacking the attribute is rejected;
otherwise some option must match a requested token by lowercase name or
by its hyphen-slugified form. -/
def passesFilter (product : Item) (filterKey filterValue : String) : Bool :=
  if !(ALLOWED_FILTERS.contains filterKey) then true
  else if filterValue = "" then true
  else
    let requested := requestedOptionsOf filterValue
    match product.attributes.find? (fun attr => attr.slug == filterKey) with
    | none => false
    | some productAttr =>
      productAttr.options.any (fun optionName =>
        let normalizedName := jsToLower optionName
        requested.contains normalizedName || requested.contains (slugifyName normalizedName))

/-- `Object.entries(attributes).every(...)` (filter.service.js:32) over
the query entries left after destructuring out page/per_page/orderby/order. -/
def matchesFilters (attrs : List (String × String)) (product : Item) : Bool :=
  attrs.all (fun kv => passesFilter product kv.1 kv.2)

/-- Result record of the paginating endpoints
(`{products, totalProducts, totalPages, page, per_page}`). -/
structure PageResult where
  products : List Item
  totalProducts : Nat
  totalPages : Nat
  page : Int
  per_page : Nat
  deriving Repr, DecidableEq

/-- Pure core of `getFilteredProducts` (filter.service.js:29-105),
applied to the snapshot that `fetchAllProducts` returned: filter by all
query attributes, sort, then slice `[(page-1)*per_page, page*per_page)`. -/
def getFilteredProductsCore (allProducts : List Item)
    (attrs : List (String × String)) (page : Int) (per_page : Nat)
    (orderby order : String) : PageResult :=
  let filteredProducts := allProducts.filter (matchesFilters attrs)
  let sortedProducts := sortByCmp (filterCmp orderby order) filteredProducts
  let totalProducts := sortedProducts.length
  let totalPages := jsCeilDiv totalProducts per_page
  let startIndex : Int := (page - 1) * per_page
  { products := jsSlice sortedProducts startIndex (startIndex + per_page)
    totalProducts := totalProducts
    totalPages := totalPages
    page := page
    per_page := per_page }

/-! ### Query Engine: category listing (src/services/products.service.js) -/

/-- `product.categories.some(cat => cat.id == categoryId)`
(products.service.js:246-250). -/
def categoryMember (categoryId : Nat) (p : Item) : Bool :=
  p.categories.any (fun cat => cat.id == categoryId)

/-- Filter + sort steps of `fetchProductsByCategory`
(products.service.js:246-283). -/
def categorySorted (allProducts : List Item) (categoryId : Nat)
    (orderby order : String) : List Item :=
  sortByCmp (categoryCmp orderby order) (allProducts.filter (categoryMember categoryId))

/-- `{products, totalProducts, totalPages}` of `fetchProductsByCategory`. -/
structure CategoryResult where
  products : List Item
  totalProducts : Nat
  totalPages : Nat
  deriving Repr, DecidableEq

/-- Pure core of `fetchProductsByCategory` (products.service.js:233-304). -/
def fetchProductsByCategoryCore (allProducts : List Item) (categoryId : Nat)
    (page : Int) (perPage : Nat) (orderby order : String) : CategoryResult :=
  let sortedProducts := categorySorted allProducts categoryId orderby order
  let totalProducts := sortedProducts.length
  let totalPages := jsCeilDiv totalProducts perPage
  let startIndex : Int := (page - 1) * perPage
  let endIndex := startIndex + perPage
  { products := jsSlice sortedProducts startIndex endIndex
    totalProducts := totalProducts
    totalPages := totalPages }

/-! ### Query Engine: free-text search (src/services/search.service.js) -/

/-- Relevance comparator of `searchProducts` (search.service.js:205-221):
exact lowercase-name match first, then `startsWith`, then
`localeCompare`.  Faithful to the early returns: when `aName` equals the
term the comparator answers `-1` without inspecting `bName`. -/
def searchCmp (searchTerm : String) (a b : Item) : Int :=
  let aName := jsToLower a.name
  let bName := jsToLower b.name
  if aName = searchTerm then -1
  else if bName = searchTerm then 1
  else
    let aStarts := aName.startsWith searchTerm
    let bStarts := bName.startsWith searchTerm
    if aStarts && !bStarts then -1
    else if bStarts && !aStarts then 1
    else localeCompare aName bName

/-! ### Query Engine: new arrivals (src/services/products.service.js) -/

/-- Filter body of `fetchNewArrivals` (products.service.js:420-426):
items without `date_created` are rejected; otherwise keep items whose
timestamp is at or after the threshold. -/
def isRecent (thresholdTime : Int) (p : Item) : Bool :=
  match p.date_created with
  | none => false
  | some t => thresholdTime ≤ t

/-- Sort comparator of lines 431-433: `new Date(b) - new Date(a)`
(date descending). -/
def newArrivalsCmp (a b : Item) : Int := jsDateVal b - jsDateVal a

/-- Pure core of `fetchNewArrivals` (products.service.js:404-450) over
the snapshot.  `thresholdTime` stands for the timestamp of
`new Date()` after `setMonth(getMonth() - 2)` (lines 410-414); the
calendar-month subtraction is performed by the platform Date library and
enters the model only through this parameter. -/
def fetchNewArrivalsCore (allProducts : List Item) (thresholdTime : Int)
    (page : Int) (perPage : Nat) : PageResult :=
  let recentProducts := allProducts.filter (isRecent thresholdTime)
  let sorted := sortByCmp newArrivalsCmp recentProducts
  let totalProducts := sorted.length
  let totalPages := jsCeilDiv totalProducts perPage
  let startIndex : Int := (page - 1) * perPage
  { products := jsSlice sorted startIndex (startIndex + perPage)
    totalProducts := totalProducts
    totalPages := totalPages
    page := page
    per_page := perPage }

/-! ### Facet Cache fetch (src/integrations/wordpress/filter.wp.js) -/

/-- Upstream attribute definition (`products/attributes` row), restricted
to the fields read. -/
structure AttributeDef where
  id : Nat
  slug : String
  deriving Repr, DecidableEq

/-- Upstream attribute-term row. -/
structure TermRec where
  id : Nat
  name : String
  slug : String
  count : Nat
  deriving Repr, DecidableEq

/-- `{id, name, slug, count}` facet option (filter.wp.js:51-56). -/
structure FacetOption where
  id : Nat
  name : String
  slug : String
  count : Nat
  deriving Repr, DecidableEq

/-- The fixed facet allow-list (filter.wp.js:27). -/
def ATTRIBUTES : List String :=
  ["pa_material", "pa_room-type-usage", "pa_colour", "pa_finish"]

/-- The `for (const slug of ATTRIBUTES)` loop (filter.wp.js:38-57),
building `results` in slug order.  A slug with no matching attribute
definition contributes `(slug, [])` and the loop continues; a failing
term fetch throws, aborting the whole loop with the error. -/
def facetLoop (allAttributes : List AttributeDef)
    (termsFor : Nat → Except String (List TermRec)) :
    List String → Except String (List (String × List FacetOption))
  | [] => .ok []
  | slug :: rest =>
    match allAttributes.find? (fun a => a.slug == slug) with
    | none =>
      match facetLoop allAttributes termsFor rest with
      | .error e => .error e
      | .ok r => .ok ((slug, []) :: r)
    | some attr =>
      match termsFor attr.id with
      | .error e => .error e
      | .ok terms =>
        match facetLoop allAttributes termsFor rest with
        | .error e => .error e
        | .ok r => .ok ((slug, terms.map (fun t => ⟨t.id, t.name, t.slug, t.count⟩)) :: r)

/-- `fetchFilterOptions` (filter.wp.js:29-65).  `attributesRes` is the
result of the `products/attributes` request, `termsFor id` the result of
`products/attributes/{id}/terms`.  The surrounding `try`/`catch` maps
any thrown error — from the attribute-list request or from any single
term request — to the all-empty facet set (line 63). -/
def fetchFilterOptions (attributesRes : Except String (List AttributeDef))
    (termsFor : Nat → Except String (List TermRec)) :
    List (String × List FacetOption) :=
  let run : Except String (List (String × List FacetOption)) :=
    match attributesRes with
    | .error e => .error e
    | .ok allAttributes => facetLoop allAttributes termsFor ATTRIBUTES
  match run with
  | .ok results => results
  | .error _ => ATTRIBUTES.map (fun slug => (slug, []))

/-! ### Category Index warm-up (src/services/products.service.js) -/

/-- Upstream category row, restricted to the fields the warm-up loop
reads. -/
structure RawCategory where
  id : Nat
  slug : String
  deriving Repr, DecidableEq

/-- The `while (fetching)` loop of `cacheAllCategoriesOnStart`
(products.service.js:162-194).  State: current `page`, the
`processedIds` set, and the `category:<slug>` cache entries written so
far (only rows with a truthy slug are written, line 186, while every
row's id joins `processedIds`, line 185).  Halts on an empty page or
when a page's first item id was already processed; `none` = the fuel
bound ran out before the loop halted. -/
def warmupLoop (pages : Nat → List RawCategory) :
    Nat → Nat → Finset Nat → List (String × RawCategory) →
    Option (Finset Nat × List (String × RawCategory))
  | 0, _, _, _ => none
  | fuel + 1, page, processedIds, written =>
    match pages page with
    | [] => some (processedIds, written)
    | first :: restRows =>
      if first.id ∈ processedIds then some (processedIds, written)
      else
        let data := first :: restRows
        let processed := data.foldl (fun s c => insert c.id s) processedIds
        let written := written ++
          (data.filter (fun c => c.slug ≠ "")).map (fun c => ("category:" ++ c.slug, c))
        warmupLoop pages fuel (page + 1) processed written

/-! ### Concrete inputs used to instantiate the theorems -/

/-- A concrete catalogue item (id `i`, creation timestamp `i`). -/
def demoItem (i : Nat) : Item :=
  { id := i
    name := "item"
    slug := "item"
    date_created := some (i : Int)
    price := some (i : Int)
    price_html := ""
    categories := [⟨1, "tiles", "Tiles"⟩]
    attributes := [⟨"pa_colour", ["Black"]⟩] }

/-- `n` concrete items with distinct ids and timestamps. -/
def demoItems (n : Nat) : List Item := (List.range n).map demoItem

/-- A concrete item with a chosen name. -/
def namedItem (i : Nat) (nm : String) : Item := { demoItem i with name := nm }

/-- A concrete item with a chosen creation timestamp. -/
def datedItem (i : Nat) (t : Option Int) : Item := { demoItem i with date_created := t }

/-- An upstream whose every page request fails. -/
def failingPages : Nat → Except String (List RawProduct) :=
  fun _ => .error "network error"

/-- A concrete raw product. -/
def demoRaw : RawProduct :=
  { id := 1, name := "Marble", slug := "marble", date_created := some 10,
    price := some 5, price_html := some "<span>£12.34</span>",
    categories := some [⟨1, "tiles", "Tiles"⟩], attributes := none }

/-- An upstream serving one page of `rows`, then the empty page. -/
def onePageUpstream (rows : List RawProduct) : Nat → Except String (List RawProduct) :=
  fun page => if page = 1 then .ok rows else .ok []

/-- All four facet attribute definitions resolve. -/
def demoAttrDefs : List AttributeDef :=
  [⟨1, "pa_material"⟩, ⟨2, "pa_room-type-usage"⟩, ⟨3, "pa_colour"⟩, ⟨4, "pa_finish"⟩]

def demoTerm : TermRec := ⟨7, "Stone", "stone", 3⟩

/-- Term lookups: attribute id 2 (`pa_room-type-usage`) fails, every other
attribute returns one term. -/
def demoTermsFor : Nat → Except String (List TermRec) :=
  fun id => if id = 2 then .error "timeout" else .ok [demoTerm]

/-- A cyclic category upstream: every page repeats the same single row. -/
def cyclicCategoryPages : Nat → List RawCategory :=
  fun _ => [⟨5, "tiles"⟩]

/-! ## Generic lemmas -/

theorem length_insertByCmp (cmp : α → α → Int) (x : α) (l : List α) :
    (insertByCmp cmp x l).length = l.length + 1 := by
  induction l with
  | nil => rfl
  | cons y ys ih =>
    simp only [insertByCmp]
    split <;> simp [ih]

theorem length_sortByCmp (cmp : α → α → Int) (l : List α) :
    (sortByCmp cmp l).length = l.length := by
  induction l with
  | nil => rfl
  | cons x xs ih => simp [sortByCmp, length_insertByCmp, ih]

theorem mem_insertByCmp (cmp : α → α → Int) (x a : α) (l : List α) :
    a ∈ insertByCmp cmp x l ↔ a = x ∨ a ∈ l := by
  induction l with
  | nil => simp [insertByCmp]
  | cons y ys ih =>
    simp only [insertByCmp]
    split
    · simp [or_comm, or_left_comm]
    · simp only [List.mem_cons, ih]
      tauto

theorem mem_sortByCmp (cmp : α → α → Int) (a : α) (l : List α) :
    a ∈ sortByCmp cmp l ↔ a ∈ l := by
  induction l with
  | nil => simp [sortByCmp]
  | cons x xs ih => simp [sortByCmp, mem_insertByCmp, ih]

theorem pairwise_insertByCmp (cmp : α → α → Int)
    (total : ∀ a b, ¬ cmp a b ≤ 0 → cmp b a ≤ 0)
    (trans : ∀ a b c, cmp a b ≤ 0 → cmp b c ≤ 0 → cmp a c ≤ 0)
    (x : α) (l : List α) (hl : l.Pairwise (fun a b => cmp a b ≤ 0)) :
    (insertByCmp cmp x l).Pairwise (fun a b => cmp a b ≤ 0) := by
  induction l with
  | nil => simp [insertByCmp]
  | cons y ys ih =>
    rcases List.pairwise_cons.mp hl with ⟨hy, hys⟩
    simp only [insertByCmp]
    split
    · rename_i hxy
      refine List.pairwise_cons.mpr ⟨?_, hl⟩
      intro b hb
      rcases List.mem_cons.mp hb with rfl | hb
      · exact hxy
      · exact trans _ _ _ hxy (hy b hb)
    · rename_i hxy
      refine List.pairwise_cons.mpr ⟨?_, ih hys⟩
      intro b hb
      rcases (mem_insertByCmp cmp x b ys).mp hb with rfl | hb
      · exact total _ _ hxy
      · exact hy b hb

theorem pairwise_sortByCmp (cmp : α → α → Int)
    (total : ∀ a b, ¬ cmp a b ≤ 0 → cmp b a ≤ 0)
    (trans : ∀ a b c, cmp a b ≤ 0 → cmp b c ≤ 0 → cmp a c ≤ 0)
    (l : List α) :
    (sortByCmp cmp l).Pairwise (fun a b => cmp a b ≤ 0) := by
  induction l with
  | nil => simp [sortByCmp]
  | cons x xs ih => exact pairwise_insertByCmp cmp total trans x _ ih

theorem jsSliceIdx_natCast (len a : Nat) : jsSliceIdx len (a : Int) = min a len := by
  unfold jsSliceIdx
  rw [if_neg (by omega), Int.toNat_ofNat]

theorem jsSlice_natCast (xs : List α) (a S : Nat) :
    jsSlice xs (a : Int) ((a : Int) + (S : Int)) = (xs.drop a).take S := by
  have hcast : (a : Int) + (S : Int) = ((a + S : Nat) : Int) := by push_cast; ring
  unfold jsSlice
  rw [hcast, jsSliceIdx_natCast, jsSliceIdx_natCast]
  rcases le_or_lt xs.length a with h | h
  · rw [Nat.min_eq_right h, List.drop_eq_nil_of_le h, List.take_nil]
    apply List.drop_eq_nil_of_le
    simp only [List.length_take]
    omega
  · rw [Nat.min_eq_left (Nat.le_of_lt h), List.drop_take]
    rcases le_or_lt (a + S) xs.length with h2 | h2
    · rw [Nat.min_eq_left h2, Nat.add_sub_cancel_left]
    · rw [Nat.min_eq_right (Nat.le_of_lt h2)]
      rw [List.take_of_length_le (by simp only [List.length_drop]; omega),
          List.take_of_length_le (by simp only [List.length_drop]; omega)]

theorem jsSlice_start_ge_len (xs : List α) (start stop : Int)
    (h : (xs.length : Int) ≤ start) : jsSlice xs start stop = [] := by
  unfold jsSlice jsSliceIdx
  rw [if_neg (by omega)]
  have hmin : min start.toNat xs.length = xs.length := by omega
  rw [hmin]
  apply List.drop_eq_nil_of_le
  simp only [List.length_take]
  omega

theorem jsSlice_stop_zero (xs : List α) (start : Int) : jsSlice xs start 0 = [] := by
  unfold jsSlice jsSliceIdx
  norm_num

theorem join_pageSlices (xs : List α) (S : Nat) (n : Nat) :
    ((List.range n).map (fun i => (xs.drop (i * S)).take S)).flatten = xs.take (n * S) := by
  induction n with
  | zero => simp
  | succ n ih =>
    rw [List.range_succ, List.map_append, List.flatten_append, ih]
    simp only [List.map_cons, List.map_nil, List.flatten_cons, List.flatten_nil,
      List.append_nil]
    rw [Nat.succ_mul, List.take_add]

theorem le_jsCeilDiv_mul (len S : Nat) (hS : 1 ≤ S) : len ≤ jsCeilDiv len S * S := by
  unfold jsCeilDiv
  rcases Nat.eq_zero_or_pos len with rfl | hlen
  · simp
  · have h1 : len + S - 1 = (len - 1) + S := by omega
    rw [h1, Nat.add_div_right _ hS]
    have h2 := Nat.div_add_mod (len - 1) S
    have h3 : (len - 1) % S < S := Nat.mod_lt _ hS
    have h4 : ((len - 1) / S + 1) * S = S * ((len - 1) / S) + S := by ring
    omega

theorem length_filter_and_le (p q : α → Bool) (xs : List α) :
    (xs.filter (fun x => p x && q x)).length ≤ (xs.filter p).length := by
  induction xs with
  | nil => simp
  | cons x l ih =>
    simp only [List.filter_cons]
    cases hp : p x <;> cases hq : q x <;> simp [hp, hq] <;> omega

theorem lexCmp_neg (x y : List Char) : lexCmp x y = - lexCmp y x := by
  induction x generalizing y with
  | nil => cases y <;> simp [lexCmp]
  | cons a as ih =>
    cases y with
    | nil => simp [lexCmp]
    | cons b bs =>
      simp only [lexCmp]
      rcases lt_trichotomy a b with h | h | h
      · simp [if_pos h, if_neg (lt_asymm h)]
      · subst h
        simp only [if_neg (lt_irrefl a)]
        exact ih bs
      · simp [if_pos h, if_neg (lt_asymm h)]

theorem takeWhile_append_eq (p : α → Bool) (tok post : List α)
    (h1 : ∀ c ∈ tok, p c = true) (h2 : ∀ c, post.head? = some c → p c = false) :
    (tok ++ post).takeWhile p = tok := by
  induction tok with
  | nil =>
    cases post with
    | nil => rfl
    | cons c cs => simp [List.takeWhile_cons, h2 c rfl]
  | cons a t ih =>
    simp only [List.cons_append, List.takeWhile_cons, h1 a (by simp)]
    simp [ih (fun c hc => h1 c (by simp [hc]))]

theorem dropWhile_head_false (p : α → Bool) (l : List α)
    (h : ∀ c, l.head? = some c → p c = false) : l.dropWhile p = l := by
  cases l with
  | nil => rfl
  | cons a t => simp [List.dropWhile_cons, h a rfl]

theorem mem_foldl_insertIds (l : List RawCategory) (s : Finset Nat) (x : Nat)
    (hx : x ∈ s) : x ∈ l.foldl (fun acc c => insert c.id acc) s := by
  induction l generalizing s with
  | nil => exact hx
  | cons c t ih => exact ih (insert c.id s) (Finset.mem_insert_of_mem hx)

theorem mem_foldl_insertIds_of_mem (l : List RawCategory) (s : Finset Nat)
    (c : RawCategory) (hc : c ∈ l) :
    c.id ∈ l.foldl (fun acc c => insert c.id acc) s := by
  induction l generalizing s with
  | nil => cases hc
  | cons a t ih =>
    rcases List.mem_cons.mp hc with rfl | hc
    · exact mem_foldl_insertIds t _ _ (Finset.mem_insert_self _ _)
    · exact ih _ hc

theorem dropWhile_append_all (p : α → Bool) (l1 l2 : List α)
    (h : ∀ c ∈ l1, p c = true) : (l1 ++ l2).dropWhile p = l2.dropWhile p := by
  induction l1 with
  | nil => rfl
  | cons a t ih =>
    simp only [List.cons_append, List.dropWhile_cons, h a (by simp)]
    exact ih (fun c hc => h c (by simp [hc]))

theorem numScan_append (pre cs : List Char)
    (h : ∀ c ∈ pre, isDigitComma c = false) :
    numScan (pre ++ cs) = numScan cs := by
  induction pre with
  | nil => rfl
  | cons c t ih =>
    simp only [List.cons_append, numScan, h c (by simp)]
    exact ih (fun x hx => h x (by simp [hx]))

theorem numScan_none (cs : List Char) (h : ∀ c ∈ cs, isDigitComma c = false) :
    numScan cs = none := by
  induction cs with
  | nil => rfl
  | cons c t ih =>
    simp only [numScan, h c (by simp)]
    exact ih (fun x hx => h x (by simp [hx]))

theorem numScan_cons_class (c : Char) (rest : List Char)
    (hc : isDigitComma c = true) :
    numScan (c :: rest) = numMatchAt (c :: rest) := by
  simp only [numScan]
  rw [if_pos hc]

theorem numScan_exists (cs : List Char) (h : ∃ c ∈ cs, isDigitComma c = true) :
    ∃ m, numScan cs = some m ∧ m ≠ [] := by
  induction cs with
  | nil =>
    rcases h with ⟨c, hc, -⟩
    cases hc
  | cons c t ih =>
    by_cases hc : isDigitComma c = true
    · have hrun : (c :: t).takeWhile isDigitComma = c :: t.takeWhile isDigitComma := by
        simp [List.takeWhile_cons, hc]
      rw [numScan_cons_class c t hc]
      simp only [numMatchAt, hrun]
      rw [if_neg (by simp)]
      by_cases hdot : ((c :: t).dropWhile isDigitComma).head? = some '.'
      · rw [if_pos hdot]
        exact ⟨_, rfl, by simp⟩
      · rw [if_neg hdot]
        exact ⟨_, rfl, by simp⟩
    · rcases h with ⟨x, hx, hxc⟩
      rcases List.mem_cons.mp hx with rfl | hx
      · exact absurd hxc hc
      · rcases ih ⟨x, hx, hxc⟩ with ⟨m, hm, hne⟩
        exact ⟨m, by simp [numScan, hc, hm], hne⟩

theorem facetLoop_ok (attrs : List AttributeDef)
    (termsFor : Nat → Except String (List TermRec)) :
    ∀ slugs : List String,
      (∀ s ∈ slugs, ∀ a, attrs.find? (fun x => x.slug == s) = some a →
        ∃ ts, termsFor a.id = .ok ts) →
      facetLoop attrs termsFor slugs = .ok (slugs.map (fun s =>
        match attrs.find? (fun x => x.slug == s) with
        | none => (s, [])
        | some a => (s, ((termsFor a.id).toOption.getD []).map
            (fun t => ⟨t.id, t.name, t.slug, t.count⟩)))) := by
  intro slugs
  induction slugs with
  | nil => intro _; rfl
  | cons s rest ih =>
    intro h
    have hrest := ih (fun x hx => h x (by simp [hx]))
    simp only [facetLoop, List.map_cons]
    cases hfind : attrs.find? (fun x => x.slug == s) with
    | none => simp [hfind, hrest]
    | some a =>
      rcases h s (by simp) a hfind with ⟨ts, hts⟩
      simp [hfind, hts, hrest, Except.toOption]

theorem facetLoop_error (attrs : List AttributeDef)
    (termsFor : Nat → Except String (List TermRec)) :
    ∀ slugs : List String,
      (∃ s ∈ slugs, ∃ a, attrs.find? (fun x => x.slug == s) = some a ∧
        ∃ e, termsFor a.id = .error e) →
      ∃ e, facetLoop attrs termsFor slugs = .error e := by
  intro slugs
  induction slugs with
  | nil => rintro ⟨s, hs, _⟩; cases hs
  | cons s rest ih =>
    rintro ⟨x, hx, a, hfind, e, herr⟩
    rcases List.mem_cons.mp hx with rfl | hx
    · exact ⟨e, by simp [facetLoop, hfind, herr]⟩
    · rcases ih ⟨x, hx, a, hfind, e, herr⟩ with ⟨e2, he2⟩
      simp only [facetLoop]
      cases hf : attrs.find? (fun t => t.slug == s) with
      | none => exact ⟨e2, by simp [he2]⟩
      | some attr =>
        cases ht : termsFor attr.id with
        | error e3 => exact ⟨e3, by simp [ht]⟩
        | ok terms => exact ⟨e2, by simp [ht, he2]⟩

theorem warmupLoop_isSome (pages : Nat → List RawCategory) (S : Finset Nat)
    (hS : ∀ p c, c ∈ pages p → c.id ∈ S) :
    ∀ (fuel page : Nat) (processedIds : Finset Nat)
      (written : List (String × RawCategory)),
      (S \ processedIds).card < fuel →
      (warmupLoop pages fuel page processedIds written).isSome = true := by
  intro fuel
  induction fuel with
  | zero => intro page s w h; exact absurd h (Nat.not_lt_zero _)
  | succ n ih =>
    intro page s w hcard
    simp only [warmupLoop]
    cases hp : pages page with
    | nil => rfl
    | cons first rest =>
      dsimp only
      by_cases hmem : first.id ∈ s
      · rw [if_pos hmem]; rfl
      · rw [if_neg hmem]
        apply ih
        have h1 : ∀ x ∈ s, x ∈ (first :: rest).foldl (fun acc c => insert c.id acc) s :=
          fun x hx => mem_foldl_insertIds _ _ _ hx
        have h2 : first.id ∈ (first :: rest).foldl (fun acc c => insert c.id acc) s :=
          mem_foldl_insertIds_of_mem _ _ first (by simp)
        have h3 : first.id ∈ S := hS page first (by rw [hp]; simp)
        have hsub : S \ (first :: rest).foldl (fun acc c => insert c.id acc) s ⊆ S \ s := by
          intro x hx
          rcases Finset.mem_sdiff.mp hx with ⟨hxS, hxp⟩
          exact Finset.mem_sdiff.mpr ⟨hxS, fun hxs => hxp (h1 x hxs)⟩
        have hx2 : first.id ∈ S \ s := Finset.mem_sdiff.mpr ⟨h3, hmem⟩
        have hnx : first.id ∉ S \ (first :: rest).foldl (fun acc c => insert c.id acc) s :=
          fun hc => (Finset.mem_sdiff.mp hc).2 h2
        have hlt : (S \ (first :: rest).foldl (fun acc c => insert c.id acc) s).card
            < (S \ s).card :=
          Finset.card_lt_card ((Finset.ssubset_iff_of_subset hsub).mpr
            ⟨first.id, hx2, hnx⟩)
        omega

theorem pageSlice_nat (xs : List α) (S i : Nat) :
    jsSlice xs (((i : Int) + 1 - 1) * (S : Int)) ((((i : Int) + 1 - 1) * (S : Int)) + (S : Int))
      = (xs.drop (i * S)).take S := by
  have h : ((i : Int) + 1 - 1) * (S : Int) = ((i * S : Nat) : Int) := by push_cast; ring
  rw [h, jsSlice_natCast]

/-! ## Claim theorems -/

/-- **C4**: for every snapshot, category id, filter set, sort parameters
and page size `S ≥ 1`, concatenating the `products` slices of pages
`1..⌈N/S⌉` returned by `fetchProductsByCategory` (and likewise by
`getFilteredProducts`) reconstructs the full filtered-and-sorted sequence
exactly — no gaps, no duplicates — and every page's `totalPages` equals
`⌈N/S⌉`. -/
theorem C4_pagination_law (allProducts : List Item) (categoryId : Nat)
    (attrs : List (String × String)) (S : Nat) (orderby order : String)
    (hS : 1 ≤ S) :
    (((List.range (jsCeilDiv (categorySorted allProducts categoryId orderby order).length S)).map
        (fun (i : Nat) => (fetchProductsByCategoryCore allProducts categoryId ((i : Int) + 1) S orderby order).products)).flatten
      = categorySorted allProducts categoryId orderby order
    ∧ ∀ page : Int,
        (fetchProductsByCategoryCore allProducts categoryId page S orderby order).totalPages
          = jsCeilDiv (categorySorted allProducts categoryId orderby order).length S)
    ∧
    (((List.range (jsCeilDiv (sortByCmp (filterCmp orderby order) (allProducts.filter (matchesFilters attrs))).length S)).map
        (fun (i : Nat) => (getFilteredProductsCore allProducts attrs ((i : Int) + 1) S orderby order).products)).flatten
      = sortByCmp (filterCmp orderby order) (allProducts.filter (matchesFilters attrs))
    ∧ ∀ page : Int,
        (getFilteredProductsCore allProducts attrs page S orderby order).totalPages
          = jsCeilDiv (sortByCmp (filterCmp orderby order) (allProducts.filter (matchesFilters attrs))).length S) := by
  have hcat : ∀ i : Nat,
      (fetchProductsByCategoryCore allProducts categoryId ((i : Int) + 1) S orderby order).products
        = ((categorySorted allProducts categoryId orderby order).drop (i * S)).take S := by
    intro i
    simp only [fetchProductsByCategoryCore]
    exact pageSlice_nat _ S i
  have hfil : ∀ i : Nat,
      (getFilteredProductsCore allProducts attrs ((i : Int) + 1) S orderby order).products
        = ((sortByCmp (filterCmp orderby order) (allProducts.filter (matchesFilters attrs))).drop (i * S)).take S := by
    intro i
    simp only [getFilteredProductsCore]
    exact pageSlice_nat _ S i
  refine ⟨⟨?_, fun page => rfl⟩, ?_, fun page => rfl⟩
  · rw [funext hcat, join_pageSlices]
    exact List.take_of_length_le (le_jsCeilDiv_mul _ _ hS)
  · rw [funext hfil, join_pageSlices]
    exact List.take_of_length_le (le_jsCeilDiv_mul _ _ hS)

theorem C4_pagination_law_witness :
    ((List.range (jsCeilDiv (categorySorted (demoItems 5) 1 "date" "desc").length 2)).map
        (fun (i : Nat) => (fetchProductsByCategoryCore (demoItems 5) 1 ((i : Int) + 1) 2 "date" "desc").products)).flatten
      = categorySorted (demoItems 5) 1 "date" "desc" :=
  (C4_pagination_law (demoItems 5) 1 [] 2 "date" "desc" (by decide)).1.1

/-- **C3**: adding one more recognized filter key (any token list) to
`getFilteredProducts` never increases `totalProducts`; recognized keys
combine by logical AND; a product lacking the filtered attribute fails
that filter; within one key a product passes iff one of its option names
matches one requested token (logical OR over the token list), by
lowercase name or hyphen-slugified lowercase name. -/
theorem C3_filter_monotone (allProducts : List Item)
    (attrs : List (String × String)) (key value : String) (page : Int)
    (per_page : Nat) (orderby order : String)
    (hk : ALLOWED_FILTERS.contains key = true) :
    ((getFilteredProductsCore allProducts (attrs ++ [(key, value)]) page per_page orderby order).totalProducts
      ≤ (getFilteredProductsCore allProducts attrs page per_page orderby order).totalProducts)
    ∧ (∀ p : Item, matchesFilters (attrs ++ [(key, value)]) p
        = (matchesFilters attrs p && passesFilter p key value))
    ∧ (∀ p : Item, value ≠ "" →
        p.attributes.find? (fun attr => attr.slug == key) = none →
        passesFilter p key value = false)
    ∧ (∀ (p : Item) (productAttr : AttributeRef), value ≠ "" →
        p.attributes.find? (fun attr => attr.slug == key) = some productAttr →
        (passesFilter p key value = true ↔
          ∃ optionName ∈ productAttr.options,
            jsToLower optionName ∈ requestedOptionsOf value
            ∨ slugifyName (jsToLower optionName) ∈ requestedOptionsOf value)) := by
  have hAND : ∀ p : Item, matchesFilters (attrs ++ [(key, value)]) p
      = (matchesFilters attrs p && passesFilter p key value) := by
    intro p
    simp [matchesFilters, List.all_append]
  have hk2 : key ∈ ALLOWED_FILTERS := by simpa using hk
  refine ⟨?_, hAND, ?_, ?_⟩
  · simp only [getFilteredProductsCore, length_sortByCmp]
    rw [List.filter_congr (fun p _ => hAND p)]
    exact length_filter_and_le _ _ _
  · intro p hv hfind
    simp [passesFilter, hk2, hv, hfind]
  · intro p productAttr hv hfind
    simp [passesFilter, hk2, hv, hfind, List.any_eq_true]

theorem C3_filter_monotone_witness :
    (getFilteredProductsCore (demoItems 5) ([] ++ [("pa_colour", "black")]) 1 12 "date" "desc").totalProducts
      ≤ (getFilteredProductsCore (demoItems 5) [] 1 12 "date" "desc").totalProducts :=
  (C3_filter_monotone (demoItems 5) [] "pa_colour" "black" 1 12 "date" "desc" (by decide)).1

/-- **C5** (amended): the query engine's pagination is a total function
(it cannot throw); for every page `≥ 1` whose start index
`(page-1)*pageSize` is at or beyond the result-set length, and for page
`0`, the returned products slice is empty.  However, contrary to the
claim, a page below `0` may return a NON-empty slice, because JS
`Array.slice` interprets negative indices as counting from the end — see
the counterexample. -/
theorem C5_out_of_range_page (allProducts : List Item)
    (attrs : List (String × String)) (thresholdTime : Int) (S : Nat)
    (orderby order : String) (page : Int) :
    (1 ≤ page →
      ((getFilteredProductsCore allProducts attrs page S orderby order).totalProducts : Int)
          ≤ (page - 1) * S →
      (getFilteredProductsCore allProducts attrs page S orderby order).products = [])
    ∧ (1 ≤ page →
      ((fetchNewArrivalsCore allProducts thresholdTime page S).totalProducts : Int)
          ≤ (page - 1) * S →
      (fetchNewArrivalsCore allProducts thresholdTime page S).products = [])
    ∧ (page = 0 →
      (getFilteredProductsCore allProducts attrs page S orderby order).products = []
      ∧ (fetchNewArrivalsCore allProducts thresholdTime page S).products = []) := by
  refine ⟨fun _ hlen => ?_, fun _ hlen => ?_, fun hpage => ?_⟩
  · simp only [getFilteredProductsCore] at hlen ⊢
    simp only [length_sortByCmp] at hlen
    exact jsSlice_start_ge_len _ _ _ (by rw [length_sortByCmp]; exact hlen)
  · simp only [fetchNewArrivalsCore] at hlen ⊢
    simp only [length_sortByCmp] at hlen
    exact jsSlice_start_ge_len _ _ _ (by rw [length_sortByCmp]; exact hlen)
  · subst hpage
    have hzero : ((0 : Int) - 1) * (S : Int) + (S : Int) = 0 := by ring
    constructor
    · simp only [getFilteredProductsCore, hzero]
      exact jsSlice_stop_zero _ _
    · simp only [fetchNewArrivalsCore, hzero]
      exact jsSlice_stop_zero _ _

theorem C5_out_of_range_page_witness :
    (getFilteredProductsCore (demoItems 20) [] 5 12 "date" "desc").products = [] :=
  (C5_out_of_range_page (demoItems 20) [] 0 12 "date" "desc" 5).1 (by decide) (by decide)

/-- **C5** counterexample: a snapshot of 20 matching items with page size
12 and page `-1` yields a NON-empty products slice (JS
`slice(-24, -12)` clamps to `[0, 8)`), refuting "any page below 1 …
returns an empty products slice". -/
theorem C5_counterexample :
    (getFilteredProductsCore (demoItems 20) [] (-1) 12 "date" "desc").products ≠ [] := by
  decide

/-- **C1** (amended): when any page request fails during a full-catalogue
fetch (cache miss or forced refresh), `fetchAllProducts` aborts the whole
fetch — no partial result is written and a previously cached snapshot is
left untouched — but the error does NOT propagate to the caller: the
`catch` handler (products.service.js:68-72) swallows it and returns an
empty array. -/
theorem C1_fetch_failure (forceRefresh : Bool)
    (pages : Nat → Except String (List RawProduct)) (fuel : Nat)
    (cache : Option (List Item)) (e : String)
    (hmiss : forceRefresh = true ∨ cache = none)
    (herr : collectPages pages fuel 1 [] = some (.error e)) :
    fetchAllProductsTry forceRefresh pages fuel cache = some (.error e)
    ∧ fetchAllProducts forceRefresh pages fuel cache = some ([], cache) := by
  have htry : fetchAllProductsTry forceRefresh pages fuel cache = some (.error e) := by
    rcases hmiss with rfl | rfl
    · cases cache <;> simp [fetchAllProductsTry, herr]
    · cases forceRefresh <;> simp [fetchAllProductsTry, herr]
  exact ⟨htry, by simp [fetchAllProducts, htry]⟩

theorem C1_fetch_failure_witness :
    fetchAllProducts true failingPages 2 none = some ([], none) :=
  (C1_fetch_failure true failingPages 2 none "network error" (Or.inl rfl) rfl).2

/-- **C1** counterexample: with a failing upstream and a populated prior
snapshot, `fetchAllProducts` returns the empty array with the cache
untouched, while its try-block carries the error `"network error"` — the
error is NOT propagated to the caller, refuting the propagation part of
the claim. -/
theorem C1_counterexample :
    fetchAllProducts true failingPages 3 (some [demoItem 0]) = some ([], some [demoItem 0])
    ∧ fetchAllProductsTry true failingPages 3 (some [demoItem 0])
        = some (.error "network error") :=
  ⟨rfl, rfl⟩

/-- **C10**: `fetchAllProducts` writes the snapshot key only when the
transformed catalogue is non-empty: a refresh whose fetch yields zero
products, or fails, leaves any existing cached snapshot unchanged and
returns the empty array, so a successful-but-empty upstream response can
never overwrite a previously populated snapshot; a non-empty transformed
catalogue replaces the snapshot wholesale. -/
theorem C10_empty_fetch_no_write (forceRefresh : Bool)
    (pages : Nat → Except String (List RawProduct)) (fuel : Nat)
    (cache : Option (List Item))
    (hmiss : forceRefresh = true ∨ cache = none) :
    (∀ raws, collectPages pages fuel 1 [] = some (.ok raws) →
        transformProducts raws = [] →
        fetchAllProducts forceRefresh pages fuel cache = some ([], cache))
    ∧ (∀ e, collectPages pages fuel 1 [] = some (.error e) →
        fetchAllProducts forceRefresh pages fuel cache = some ([], cache))
    ∧ (∀ raws, collectPages pages fuel 1 [] = some (.ok raws) →
        transformProducts raws ≠ [] →
        fetchAllProducts forceRefresh pages fuel cache
          = some (transformProducts raws, some (transformProducts raws))) := by
  refine ⟨?_, ?_, ?_⟩
  · intro raws hok hempty
    have htry : fetchAllProductsTry forceRefresh pages fuel cache
        = some (.ok ([], cache)) := by
      rcases hmiss with rfl | rfl
      · cases cache <;> simp [fetchAllProductsTry, hok, hempty]
      · cases forceRefresh <;> simp [fetchAllProductsTry, hok, hempty]
    simp [fetchAllProducts, htry]
  · intro e herr
    have htry : fetchAllProductsTry forceRefresh pages fuel cache = some (.error e) := by
      rcases hmiss with rfl | rfl
      · cases cache <;> simp [fetchAllProductsTry, herr]
      · cases forceRefresh <;> simp [fetchAllProductsTry, herr]
    simp [fetchAllProducts, htry]
  · intro raws hok hne
    have hlen : 0 < (transformProducts raws).length := List.length_pos.mpr hne
    have htry : fetchAllProductsTry forceRefresh pages fuel cache
        = some (.ok (transformProducts raws, some (transformProducts raws))) := by
      rcases hmiss with rfl | rfl
      · cases cache <;> simp [fetchAllProductsTry, hok, hlen]
      · cases forceRefresh <;> simp [fetchAllProductsTry, hok, hlen]
    simp [fetchAllProducts, htry]

theorem C10_empty_fetch_no_write_witness :
    fetchAllProducts true (fun _ => Except.ok []) 1 (some [demoItem 0])
      = some ([], some [demoItem 0]) :=
  (C10_empty_fetch_no_write true (fun _ => Except.ok []) 1 (some [demoItem 0])
    (Or.inl rfl)).1 [] rfl rfl

/-- **C8**: over any snapshot and any threshold timestamp (the value of
"now minus 2 calendar months" computed by `setMonth(getMonth()-2)`), the
new-arrivals result contains exactly the items of the snapshot whose
parsed creation timestamp is at or after the threshold — an item exactly
at the threshold is included, an item one day (86 400 000 ms) older is
excluded — and the returned products page is sorted by creation
timestamp descending. -/
theorem C8_new_arrivals (allProducts : List Item) (thresholdTime : Int)
    (page : Int) (perPage : Nat) :
    (∀ p : Item,
        p ∈ sortByCmp newArrivalsCmp (allProducts.filter (isRecent thresholdTime)) ↔
          p ∈ allProducts ∧ ∃ t, p.date_created = some t ∧ thresholdTime ≤ t)
    ∧ (∀ p : Item, p ∈ allProducts → p.date_created = some thresholdTime →
        p ∈ sortByCmp newArrivalsCmp (allProducts.filter (isRecent thresholdTime)))
    ∧ (∀ p : Item, p.date_created = some (thresholdTime - 86400000) →
        p ∉ sortByCmp newArrivalsCmp (allProducts.filter (isRecent thresholdTime)))
    ∧ (fetchNewArrivalsCore allProducts thresholdTime page perPage).products.Pairwise
        (fun a b => jsDateVal b ≤ jsDateVal a) := by
  have hmem : ∀ p : Item,
      p ∈ sortByCmp newArrivalsCmp (allProducts.filter (isRecent thresholdTime)) ↔
        p ∈ allProducts ∧ ∃ t, p.date_created = some t ∧ thresholdTime ≤ t := by
    intro p
    rw [mem_sortByCmp, List.mem_filter]
    constructor
    · rintro ⟨hp, hr⟩
      refine ⟨hp, ?_⟩
      unfold isRecent at hr
      cases hd : p.date_created with
      | none => rw [hd] at hr; cases hr
      | some t => rw [hd] at hr; exact ⟨t, rfl, by simpa using hr⟩
    · rintro ⟨hp, t, hd, ht⟩
      refine ⟨hp, ?_⟩
      unfold isRecent
      rw [hd]
      simpa
  refine ⟨hmem, ?_, ?_, ?_⟩
  · intro p hp hd
    exact (hmem p).mpr ⟨hp, thresholdTime, hd, le_refl _⟩
  · intro p hd hin
    rcases ((hmem p).mp hin).2 with ⟨t, ht, hle⟩
    rw [hd] at ht
    injection ht with ht
    omega
  · have hp : (sortByCmp newArrivalsCmp (allProducts.filter (isRecent thresholdTime))).Pairwise
        (fun a b => newArrivalsCmp a b ≤ 0) :=
      pairwise_sortByCmp _ (fun a b h => by unfold newArrivalsCmp at *; omega)
        (fun a b c h1 h2 => by unfold newArrivalsCmp at *; omega) _
    have hp2 : (sortByCmp newArrivalsCmp (allProducts.filter (isRecent thresholdTime))).Pairwise
        (fun a b => jsDateVal b ≤ jsDateVal a) :=
      hp.imp (fun h => by unfold newArrivalsCmp at h; omega)
    have hsub : (fetchNewArrivalsCore allProducts thresholdTime page perPage).products.Sublist
        (sortByCmp newArrivalsCmp (allProducts.filter (isRecent thresholdTime))) := by
      simp only [fetchNewArrivalsCore]
      exact (List.drop_sublist _ _).trans (List.take_sublist _ _)
    exact hp2.sublist hsub

theorem C8_new_arrivals_witness :
    datedItem 9 (some 100) ∈ sortByCmp newArrivalsCmp
      ((demoItems 5 ++ [datedItem 9 (some 100)]).filter (isRecent 100)) :=
  (C8_new_arrivals (demoItems 5 ++ [datedItem 9 (some 100)]) 100 1 12).2.1
    (datedItem 9 (some 100)) (by decide) rfl

/-- **C9**: the category warm-up loop halts when a page returns zero
items; halts early when a page's first item id was already processed
(non-advancing or cyclic upstream pagination); and on any upstream whose
category ids are drawn from a finite set `S`, fuel exceeding
`|S \ processed|` suffices for the loop to halt — warm-up terminates. -/
theorem C9_warmup_terminates (pages : Nat → List RawCategory) (S : Finset Nat)
    (hS : ∀ p, ∀ c ∈ pages p, c.id ∈ S) (fuel page : Nat)
    (processedIds : Finset Nat) (written : List (String × RawCategory)) :
    (pages page = [] →
      warmupLoop pages (fuel + 1) page processedIds written = some (processedIds, written))
    ∧ (∀ first rest, pages page = first :: rest → first.id ∈ processedIds →
      warmupLoop pages (fuel + 1) page processedIds written = some (processedIds, written))
    ∧ ((S \ processedIds).card < fuel →
      (warmupLoop pages fuel page processedIds written).isSome = true) := by
  refine ⟨?_, ?_, ?_⟩
  · intro h
    simp [warmupLoop, h]
  · intro first rest h hmem
    simp [warmupLoop, h, hmem]
  · intro hcard
    exact warmupLoop_isSome pages S hS fuel page processedIds written hcard

theorem C9_warmup_terminates_witness :
    (warmupLoop cyclicCategoryPages 2 1 ∅ []).isSome = true :=
  (C9_warmup_terminates cyclicCategoryPages {5}
    (fun p c hc => by
      simp only [cyclicCategoryPages, List.mem_singleton] at hc
      subst hc
      decide)
    2 1 ∅ []).2.2 (by decide)

/-- **C2** (amended): the search relevance comparator is antisymmetric
and trichotomous on every pair of items of which at most one lowercased
name equals the search term — per tier, exactly one of equal-rank,
a-before-b, b-before-a holds.  When BOTH names equal the search term the
comparator ranks each item strictly before the other (it returns `-1`
for both argument orders), so antisymmetry fails exactly there — see the
counterexample. -/
theorem C2_searchCmp_antisymm (searchTerm : String) (a b : Item)
    (h : ¬ (jsToLower a.name = searchTerm ∧ jsToLower b.name = searchTerm)) :
    (searchCmp searchTerm a b < 0 ↔ searchCmp searchTerm b a > 0)
    ∧ (searchCmp searchTerm a b = 0 ↔ searchCmp searchTerm b a = 0)
    ∧ (searchCmp searchTerm a b > 0 ↔ searchCmp searchTerm b a < 0) := by
  by_cases haN : jsToLower a.name = searchTerm
  · by_cases hbN : jsToLower b.name = searchTerm
    · exact absurd ⟨haN, hbN⟩ h
    · have e1 : searchCmp searchTerm a b = -1 := by simp [searchCmp, haN]
      have e2 : searchCmp searchTerm b a = 1 := by simp [searchCmp, haN, hbN]
      rw [e1, e2]
      refine ⟨?_, ?_, ?_⟩ <;> constructor <;> intro h2 <;> omega
  · by_cases hbN : jsToLower b.name = searchTerm
    · have e1 : searchCmp searchTerm a b = 1 := by simp [searchCmp, haN, hbN]
      have e2 : searchCmp searchTerm b a = -1 := by simp [searchCmp, hbN]
      rw [e1, e2]
      refine ⟨?_, ?_, ?_⟩ <;> constructor <;> intro h2 <;> omega
    · have hneg := lexCmp_neg (jsToLower a.name).data (jsToLower b.name).data
      by_cases haS : (jsToLower a.name).startsWith searchTerm
        <;> by_cases hbS : (jsToLower b.name).startsWith searchTerm
      · have e1 : searchCmp searchTerm a b
            = localeCompare (jsToLower a.name) (jsToLower b.name) := by
          simp [searchCmp, haN, hbN, haS, hbS]
        have e2 : searchCmp searchTerm b a
            = localeCompare (jsToLower b.name) (jsToLower a.name) := by
          simp [searchCmp, haN, hbN, haS, hbS]
        rw [e1, e2]
        unfold localeCompare
        refine ⟨?_, ?_, ?_⟩ <;> constructor <;> intro h2 <;> omega
      · have e1 : searchCmp searchTerm a b = -1 := by simp [searchCmp, haN, hbN, haS, hbS]
        have e2 : searchCmp searchTerm b a = 1 := by simp [searchCmp, haN, hbN, haS, hbS]
        rw [e1, e2]
        refine ⟨?_, ?_, ?_⟩ <;> constructor <;> intro h2 <;> omega
      · have e1 : searchCmp searchTerm a b = 1 := by simp [searchCmp, haN, hbN, haS, hbS]
        have e2 : searchCmp searchTerm b a = -1 := by simp [searchCmp, haN, hbN, haS, hbS]
        rw [e1, e2]
        refine ⟨?_, ?_, ?_⟩ <;> constructor <;> intro h2 <;> omega
      · have e1 : searchCmp searchTerm a b
            = localeCompare (jsToLower a.name) (jsToLower b.name) := by
          simp [searchCmp, haN, hbN, haS, hbS]
        have e2 : searchCmp searchTerm b a
            = localeCompare (jsToLower b.name) (jsToLower a.name) := by
          simp [searchCmp, haN, hbN, haS, hbS]
        rw [e1, e2]
        unfold localeCompare
        refine ⟨?_, ?_, ?_⟩ <;> constructor <;> intro h2 <;> omega

theorem C2_searchCmp_antisymm_witness :
    (searchCmp "marble" (namedItem 1 "Marble") (namedItem 3 "Granite") < 0
      ↔ searchCmp "marble" (namedItem 3 "Granite") (namedItem 1 "Marble") > 0) :=
  (C2_searchCmp_antisymm "marble" (namedItem 1 "Marble") (namedItem 3 "Granite")
    (by decide)).1

/-- **C2** counterexample: two distinct items whose names both equal the
search term `"marble"` (up to lowercasing) are each ranked strictly
before the other — `searchCmp` answers `-1` for both argument orders, so
the comparator is not antisymmetric on such pairs. -/
theorem C2_counterexample :
    searchCmp "marble" (namedItem 1 "Marble") (namedItem 2 "marble") = -1
    ∧ searchCmp "marble" (namedItem 2 "marble") (namedItem 1 "Marble") = -1 :=
  ⟨rfl, rfl⟩

/-- **C6** (amended): in the facet fetch over the four-slug allow-list, a
slug whose attribute definition is missing from the attribute list yields
an empty entry for that slug only while every other slug proceeds; but a
thrown lookup failure — the attribute-list request itself, or ANY single
attribute's term fetch — is caught by the surrounding handler, which
returns the WHOLE facet set empty: every slug maps to `[]` (and no error
propagates to the caller). -/
theorem C6_facet_failures (attrs : List AttributeDef)
    (termsFor : Nat → Except String (List TermRec)) :
    ((∀ s ∈ ATTRIBUTES, ∀ a, attrs.find? (fun x => x.slug == s) = some a →
        ∃ ts, termsFor a.id = .ok ts) →
      fetchFilterOptions (.ok attrs) termsFor = ATTRIBUTES.map (fun s =>
        match attrs.find? (fun x => x.slug == s) with
        | none => (s, [])
        | some a => (s, ((termsFor a.id).toOption.getD []).map
            (fun t => ⟨t.id, t.name, t.slug, t.count⟩))))
    ∧ ((∃ s ∈ ATTRIBUTES, ∃ a, attrs.find? (fun x => x.slug == s) = some a ∧
          ∃ e, termsFor a.id = .error e) →
      fetchFilterOptions (.ok attrs) termsFor
        = ATTRIBUTES.map (fun slug => (slug, []))) := by
  constructor
  · intro hall
    have hloop := facetLoop_ok attrs termsFor ATTRIBUTES hall
    simp [fetchFilterOptions, hloop]
  · intro hfail
    rcases facetLoop_error attrs termsFor ATTRIBUTES hfail with ⟨e, he⟩
    simp [fetchFilterOptions, he]

theorem C6_facet_failures_witness :
    fetchFilterOptions (.ok demoAttrDefs) demoTermsFor
      = ATTRIBUTES.map (fun slug => (slug, [])) :=
  (C6_facet_failures demoAttrDefs demoTermsFor).2
    ⟨"pa_room-type-usage", by decide, ⟨2, "pa_room-type-usage"⟩, rfl, "timeout", rfl⟩

/-- **C6** counterexample: all four attribute definitions resolve, only
the term fetch for `pa_room-type-usage` (id 2) fails, yet the whole
facet set comes back empty — in particular `pa_material` (id 1), whose
term lookup succeeds with one term, is returned empty instead of
populated, refuting "every other attribute's term list is still fetched
and returned populated". -/
theorem C6_counterexample :
    fetchFilterOptions (.ok demoAttrDefs) demoTermsFor
      = [("pa_material", []), ("pa_room-type-usage", []), ("pa_colour", []), ("pa_finish", [])]
    ∧ demoTermsFor 1 = .ok [demoTerm] :=
  ⟨rfl, rfl⟩

/-- **C7**: the transformer's `price_html` parse first strips markup
(`replace(/<[^>]*>?/gm, '')`) and then extracts the first numeric token
matching `[\d,]+\.?\d*` from the price fragment, returning the empty
string when no such token exists (in particular for an absent field and
for a fragment with no digit/comma character at all); any fragment whose
stripped text contains a numeric token yields that (first, maximal)
token — and in particular a non-empty result. -/
theorem C7_price_parse (s : String) (pre run1 dots post : List Char)
    (hclean : stripTagsAux false s.data = pre ++ (run1 ++ (dots ++ post)))
    (hpre : ∀ c ∈ pre, isDigitComma c = false)
    (hrun1 : run1 ≠ []) (hrun2 : ∀ c ∈ run1, isDigitComma c = true)
    (hdots : (dots = [] ∧ ∀ c, post.head? = some c → isDigitComma c = false ∧ c ≠ '.')
      ∨ (∃ ds, dots = '.' :: ds ∧ (∀ c ∈ ds, c.isDigit = true)
          ∧ (∀ c, post.head? = some c → c.isDigit = false))) :
    parsePriceHtml (some s) = String.mk (run1 ++ dots)
    ∧ parsePriceHtml none = ""
    ∧ (∀ s2 : String, (∀ c ∈ stripTagsAux false s2.data, isDigitComma c = false) →
        parsePriceHtml (some s2) = "")
    ∧ (∀ s2 : String, (∃ c ∈ stripTagsAux false s2.data, isDigitComma c = true) →
        parsePriceHtml (some s2) ≠ "") := by
  refine ⟨?_, rfl, ?_, ?_⟩
  · -- first-token extraction
    have hsne : ¬ (s = "") := by
      intro he
      subst he
      have h0 : ([] : List Char) = pre ++ (run1 ++ (dots ++ post)) := hclean
      rcases List.append_eq_nil.mp h0.symm with ⟨-, h2⟩
      rcases List.append_eq_nil.mp h2 with ⟨h3, -⟩
      exact hrun1 h3
    have hne : ¬ (run1.isEmpty = true) := by
      cases run1 with
      | nil => exact absurd rfl hrun1
      | cons _ _ => simp
    have hstep : numScan (run1 ++ (dots ++ post)) = numMatchAt (run1 ++ (dots ++ post)) := by
      cases run1 with
      | nil => exact absurd rfl hrun1
      | cons r rt =>
        have hrc : isDigitComma r = true := hrun2 r (by simp)
        rw [List.cons_append, numScan_cons_class r _ hrc]
    have hscan : numScan (stripTagsAux false s.data) = some (run1 ++ dots) := by
      rw [hclean, numScan_append pre _ hpre, hstep]
      rcases hdots with ⟨hdnil, hpost⟩ | ⟨ds, hdcons, hds, hpost⟩
      · subst hdnil
        simp only [List.nil_append]
        have htake : (run1 ++ post).takeWhile isDigitComma = run1 :=
          takeWhile_append_eq _ _ _ hrun2 (fun c hc => (hpost c hc).1)
        have hdrop : (run1 ++ post).dropWhile isDigitComma = post := by
          rw [dropWhile_append_all _ _ _ hrun2]
          exact dropWhile_head_false _ _ (fun c hc => (hpost c hc).1)
        have hhead : ¬ (post.head? = some '.') := fun hh => (hpost '.' hh).2 rfl
        simp only [numMatchAt, htake, hdrop]
        rw [if_neg hne, if_neg hhead, List.append_nil]
      · subst hdcons
        have hdotfalse : isDigitComma '.' = false := by decide
        simp only [List.cons_append]
        have htake : (run1 ++ '.' :: (ds ++ post)).takeWhile isDigitComma = run1 :=
          takeWhile_append_eq _ _ _ hrun2 (fun c hc => by
            simp only [List.head?_cons] at hc
            injection hc with hc
            subst hc
            exact hdotfalse)
        have hdrop : (run1 ++ '.' :: (ds ++ post)).dropWhile isDigitComma
            = '.' :: (ds ++ post) := by
          rw [dropWhile_append_all _ _ _ hrun2]
          simp [List.dropWhile_cons, hdotfalse]
        have htake2 : (ds ++ post).takeWhile Char.isDigit = ds :=
          takeWhile_append_eq _ _ _ hds hpost
        simp only [numMatchAt, htake, hdrop, List.head?_cons, List.tail_cons, htake2]
        simp [hrun1]
    simp [parsePriceHtml, hsne, hscan]
  · -- no numeric token anywhere in the stripped fragment
    intro s2 hnone
    by_cases hs2 : s2 = ""
    · subst hs2; rfl
    · simp [parsePriceHtml, hs2, numScan_none _ hnone]
  · -- a numeric token in the stripped fragment gives a non-empty result
    intro s2 hsome
    by_cases hs2 : s2 = ""
    · subst hs2
      rcases hsome with ⟨c, hc, -⟩
      cases hc
    · rcases numScan_exists _ hsome with ⟨m, hm, hne⟩
      simp only [parsePriceHtml, if_neg hs2, hm]
      intro he
      have hdata := congrArg String.data he
      simp at hdata
      exact hne hdata

theorem C7_price_parse_witness :
    parsePriceHtml (some "<span>£12.34</span>") = String.mk (['1', '2'] ++ '.' :: ['3', '4']) :=
  (C7_price_parse "<span>£12.34</span>" ['£'] ['1', '2'] ('.' :: ['3', '4']) []
    (by decide) (by decide) (by decide) (by decide)
    (Or.inr ⟨['3', '4'], rfl, by decide, fun c hc => by cases hc⟩)).1

end Ecom
